import Mathlib

/-!
# Verification of the cineio session engine

A shallow embedding of the cineio multiplayer session engine, translated from
the JavaScript sources:

* `src/server/models/User.js` — movie records, the compatibility oracle
  (`canAbsorb`, `getMissingMovies`) and the rating update (`updateElo`);
* `src/server/models/Fight.js` (the `GameSession` model it contains) —
  player and orb records, `absorb`, `consumeMovieOrb`, `shouldEnd`,
  `endSession`;
* `src/server/game/GameManager.js` and its later iteration with the
  quiz-duel branch — movement clamping, the encounter scan and the
  encounter outcome resolution.

JavaScript numbers are embedded as `Int`/`Nat` for the integer point/size
economy, as `Rat` for world coordinates, and as `Real` for the rating
formula (which uses a transcendental exponentiation).  `Math.floor(x * 0.5)`
on a non-negative integer `x` is embedded as `x / 2` (exact: binary floats
multiply by `0.5` exactly) and `Math.floor(x * 0.3)` as `(3 * x) / 10`
(which agrees with the float computation throughout the configured range).
Timestamps (`Date.getTime()` / `Date.now()`) are embedded as `Int`
milliseconds; nullable timestamp fields become `Option Int`.
-/

namespace Cineio

/-! ## Movie and user model (`src/server/models/User.js`) -/

/-- One entry of `movieSchema`: a movie record as stored in a user's lists.
Only the fields read by the engine are kept. -/
structure Movie where
  title : String
  year : Int
  director : Option String := none
  letterboxdUrl : Option String := none
deriving DecidableEq, Repr

/-- The raw matching key used by `canAbsorb` and `getMissingMovies`:
the template string `${m.title}-${m.year}`. -/
def movieKey (m : Movie) : String :=
  m.title ++ "-" ++ toString m.year

/-- The fields of `userSchema` read by the compatibility oracle and the
rating update. -/
structure User where
  watchedMovies : List Movie := []
  fiveStarMovies : List Movie := []
  fightMoviePool : List Movie := []
  eloRating : Int := 1200
deriving DecidableEq, Repr

/-- The comparison set used by `canAbsorb`: the reduced `fightMoviePool`
(10 random movies) when non-empty, otherwise all 5-star movies. -/
def comparisonSet (target : User) : List Movie :=
  if target.fightMoviePool.length > 0 then target.fightMoviePool
  else target.fiveStarMovies

/-- `userSchema.methods.canAbsorb`: the observer must have seen (watched or
rated 5-star) every movie in the target's comparison set, matching on the
raw `title-year` key. -/
def canAbsorb (self target : User) : Bool :=
  let mySeen := (self.watchedMovies ++ self.fiveStarMovies).map movieKey
  (comparisonSet target).all (fun m => mySeen.contains (movieKey m))

/-- `userSchema.methods.getMissingMovies`: the target's 5-star movies whose
raw `title-year` key is absent from the observer's seen keys.  Note this
always filters the full `fiveStarMovies` list, never the reduced pool. -/
def getMissingMovies (self target : User) : List Movie :=
  let mySeen := (self.watchedMovies ++ self.fiveStarMovies).map movieKey
  target.fiveStarMovies.filter (fun m => !(mySeen.contains (movieKey m)))

/-! ### The spec-side matching rule, for comparison with `canAbsorb`

The specification (§3 "Compatibility fact", §4.1) states that movies are
matched by *normalized* `(title, year)` pair with an alternate URL-based
key when present.  The following definitions state that rule so it can be
compared with the code's `canAbsorb`; the normalization mirrors the spec's
"lowercase, collapse non-alphanumeric runs to a space, trim" reading. -/

/-- Split a character list into its maximal alphanumeric runs.  The
accumulator holds the current run in reverse. -/
def splitAlnumAux : List Char → List Char → List (List Char)
  | [], acc => if acc.isEmpty then [] else [acc.reverse]
  | c :: rest, acc =>
    if c.isAlphanum then splitAlnumAux rest (c :: acc)
    else if acc.isEmpty then splitAlnumAux rest []
    else acc.reverse :: splitAlnumAux rest []

/-- Interleave words with single spaces. -/
def joinWords : List (List Char) → List Char
  | [] => []
  | [w] => w
  | w :: ws => w ++ ' ' :: joinWords ws

/-- Normalization of a title: lowercase, replace runs of non-alphanumeric
characters by a single space, trim the ends. -/
def normalizeTitle (t : String) : String :=
  String.mk (joinWords (splitAlnumAux (t.toList.map Char.toLower) []))

/-- Lowercased copy of a string. -/
def lowerStr (s : String) : String :=
  String.mk (s.toList.map Char.toLower)

/-- The URL-based alternate key of a movie, when a non-empty URL is present. -/
def urlKey (m : Movie) : Option String :=
  match m.letterboxdUrl with
  | some u => if u.isEmpty then none else some (lowerStr u)
  | none => none

/-- The spec's matching rule between two movie records: normalized
`(title, year)` pair, or the alternate URL-based key when present on both. -/
def specMatches (a b : Movie) : Bool :=
  (normalizeTitle a.title == normalizeTitle b.title && a.year == b.year) ||
  (match urlKey a, urlKey b with
   | some ka, some kb => ka == kb
   | _, _ => false)

/-- The compatibility oracle as the specification words it: every entry of
the target's comparison set matches an entry of the observer's seen set
under `specMatches`.  Stated from the spec for comparison with `canAbsorb`. -/
def canSatisfySpec (observer target : User) : Bool :=
  (comparisonSet target).all
    (fun m => (observer.watchedMovies ++ observer.fiveStarMovies).any
      (fun m' => specMatches m' m))

/-! ## Claims C3 and C10 -/

/-- A concrete movie pair differing only in title casing. -/
def movieMatrixA : Movie := { title := "The Matrix", year := 1999 }

/-- Same movie, lowercased title — equal under the spec's normalized
matching, different under the raw `title-year` key. -/
def movieMatrixB : Movie := { title := "the matrix", year := 1999 }

/-- Observer who watched `movieMatrixA`. -/
def observerC3 : User := { watchedMovies := [movieMatrixA] }

/-- Target whose comparison set is `[movieMatrixB]`. -/
def targetC3 : User := { fiveStarMovies := [movieMatrixB] }

/-- C3 counterexample: the spec's matching rule (normalized title/year,
URL alternate key) accepts this observer/target pair, but the code's
`canAbsorb` — which matches on the raw `${title}-${year}` string with no
normalization and no URL fallback — rejects it.  So `canAbsorb` is *not*
the "iff" of the claim under the claimed matching rule. -/
theorem canAbsorb_differs_from_normalized_matching :
    canSatisfySpec observerC3 targetC3 = true ∧
    canAbsorb observerC3 targetC3 = false := by
  constructor <;> decide

/-- C3 (amended): `canAbsorb observer target` returns `true` iff every entry
of the target's comparison set (the reduced `fightMoviePool` when non-empty,
else the full 5-star list) has a matching entry in the observer's seen set
(watched plus 5-star), where entries are matched by *exact* raw
`title-year` key equality — no normalization and no URL-based key. -/
theorem canAbsorb_iff_raw_key_coverage (self target : User) :
    canAbsorb self target = true ↔
      ∀ m ∈ comparisonSet target,
        ∃ m' ∈ self.watchedMovies ++ self.fiveStarMovies,
          movieKey m' = movieKey m := by
  simp only [canAbsorb, List.all_eq_true, List.contains_iff_exists_mem_beq,
    List.mem_map, beq_iff_eq]
  constructor
  · intro h m hm
    obtain ⟨k, ⟨m', hm', rfl⟩, hk⟩ := h m hm
    exact ⟨m', hm', hk.symm⟩
  · intro h m hm
    obtain ⟨m', hm', hk⟩ := h m hm
    exact ⟨movieKey m', ⟨m', hm', rfl⟩, hk.symm⟩

/-- A second concrete movie, used to exhibit the pool/missing divergence. -/
def movieRan : Movie := { title := "Ran", year := 1985 }

/-- Observer who has seen only `movieMatrixA`. -/
def observerC10 : User := { watchedMovies := [movieMatrixA] }

/-- Target with a two-movie 5-star list but a one-movie reduced pool. -/
def targetC10 : User :=
  { fiveStarMovies := [movieMatrixA, movieRan], fightMoviePool := [movieMatrixA] }

/-- C10: when the target has a non-empty reduced pool, `canAbsorb` checks
coverage of that pool while `getMissingMovies` filters the full 5-star
list, so there are inputs where `canAbsorb` is `true` yet
`getMissingMovies` is non-empty: the missing-movie feedback is not the
complement of the compatibility decision. -/
theorem canAbsorb_getMissingMovies_divergence :
    ∃ observer target : User,
      target.fightMoviePool ≠ [] ∧
      canAbsorb observer target = true ∧
      getMissingMovies observer target ≠ [] := by
  refine ⟨observerC10, targetC10, ?_, ?_, ?_⟩ <;> decide

/-! ## Session data model (`GameSession` model in `src/server/models/Fight.js`) -/

/-- The numeric policy fields of `gameSessionSchema.settings` used by the
engine, with the schema's defaults. -/
structure Settings where
  absorptionCooldown : Nat := 5000
  spawnProtectionMs : Nat := 5000
  safeSpawnMinDistance : Nat := 120
  maxSpawnAttempts : Nat := 25
  battleHaltMs : Nat := 600
  battleCooldownMs : Nat := 2000
  absorptionPointGain : Nat := 20
  absorptionPointLoss : Nat := 10
  maxMovieOrbs : Nat := 50
  orbSpawnRate : Nat := 30000
deriving DecidableEq, Repr

/-- One entry of `playerSchema`: a player's in-session record.  `pid` is the
Mongo subdocument `_id`, rendered as a string. -/
structure Player where
  pid : String := ""
  userId : String := ""
  username : String := ""
  socketId : Option String := none
  posX : Rat := 0
  posY : Rat := 0
  size : Int := 20
  isAlive : Bool := true
  joinedAt : Int := 0
  lastActive : Int := 0
  absorptions : Nat := 0
  points : Int := 100
  survivalTime : Int := 0
  spawnProtectedUntil : Option Int := none
  battleHaltUntil : Option Int := none
  battleCooldownUntil : Option Int := none
deriving DecidableEq, Repr

/-- One entry of `movieOrbSchema`: a consumable orb. -/
structure MovieOrb where
  id : String := ""
  posX : Rat := 0
  posY : Rat := 0
  movies : List Movie := []
  pointValue : Nat := 5
  size : Rat := 8
deriving DecidableEq, Repr

/-- The session lifecycle status enum. -/
inductive SessionStatus where
  | waiting
  | active
  | ended
deriving DecidableEq, Repr

/-- The winner summary written on session end. -/
structure WinnerInfo where
  userId : String
  username : String
  finalSize : Int
  totalAbsorptions : Nat
deriving DecidableEq, Repr

/-- The fields of `gameSessionSchema` read and written by the engine. -/
structure GameSession where
  sessionId : String := ""
  status : SessionStatus := .waiting
  worldWidth : Rat := 1000
  worldHeight : Rat := 1000
  players : List Player := []
  movieOrbs : List MovieOrb := []
  startTime : Int := 0
  endTime : Option Int := none
  duration : Nat := 7
  winner : Option WinnerInfo := none
  settings : Settings := {}
deriving DecidableEq, Repr

/-! ### Updating the first matching element of a list

The Mongoose methods mutate the player record returned by
`players.find(...)` in place; on an immutable list this is an update of the
first element satisfying the lookup predicate. -/

/-- Replace the first element satisfying `p` by its image under `f`. -/
def updateFirst (p : α → Bool) (f : α → α) : List α → List α
  | [] => []
  | x :: xs => if p x then f x :: xs else x :: updateFirst p f xs

theorem length_updateFirst (p : α → Bool) (f : α → α) :
    ∀ l : List α, (updateFirst p f l).length = l.length
  | [] => rfl
  | x :: xs => by
    by_cases hx : p x <;>
      simp [updateFirst, hx, length_updateFirst p f xs]

/-- Looking up with the same predicate after the update returns the updated
element, provided `f` preserves the predicate. -/
theorem find?_updateFirst_map {p : α → Bool} {f : α → α}
    (hpf : ∀ x, p x = true → p (f x) = true) :
    ∀ l : List α, (updateFirst p f l).find? p = (l.find? p).map f
  | [] => rfl
  | x :: xs => by
    by_cases hx : p x = true
    · rw [updateFirst, if_pos hx, List.find?_cons_of_pos _ (hpf x hx),
        List.find?_cons_of_pos _ hx, Option.map_some']
    · rw [updateFirst, if_neg (by simp [hx]),
        List.find?_cons_of_neg _ (by simp [hx]),
        List.find?_cons_of_neg _ (by simp [hx]),
        find?_updateFirst_map hpf xs]

/-- Looking up with a predicate disjoint from the updated one is unaffected
by the update. -/
theorem find?_updateFirst_of_disjoint {p q : α → Bool} {f : α → α}
    (hq : ∀ x, q x = true → p x = false)
    (hqf : ∀ x, q x = true → p (f x) = false) :
    ∀ l : List α, (updateFirst q f l).find? p = l.find? p
  | [] => rfl
  | x :: xs => by
    by_cases hx : q x = true
    · rw [updateFirst, if_pos hx, List.find?_cons_of_neg _ (by simp [hqf x hx]),
        List.find?_cons_of_neg _ (by simp [hq x hx])]
    · rw [updateFirst, if_neg (by simp [hx])]
      by_cases hpx : p x = true
      · rw [List.find?_cons_of_pos _ hpx, List.find?_cons_of_pos _ hpx]
      · rw [List.find?_cons_of_neg _ (by simp [hpx]),
          List.find?_cons_of_neg _ (by simp [hpx]),
          find?_updateFirst_of_disjoint hq hqf xs]

/-! ### The absorb operation (`gameSessionSchema.methods.absorb`) -/

/-- The player lookup predicate `p.socketId === sid`. -/
def bySid (sid : String) (p : Player) : Bool :=
  p.socketId == some sid

/-- The configured point gain, with the `|| 20` fallback of the source. -/
def settingsGain (st : Settings) : Nat :=
  if st.absorptionPointGain = 0 then 20 else st.absorptionPointGain

/-- The configured point loss, with the `|| 10` fallback of the source. -/
def settingsLoss (st : Settings) : Nat :=
  if st.absorptionPointLoss = 0 then 10 else st.absorptionPointLoss

/-- The winner's side of `absorb`: `points += pointGain`,
`size += Math.floor(pointGain * 0.5)`, `absorptions += 1`. -/
def absorbWinnerUpd (gain : Nat) (p : Player) : Player :=
  { p with points := p.points + gain
           size := p.size + (gain / 2 : Nat)
           absorptions := p.absorptions + 1 }

/-- The loser's side of `absorb`: `points = max(0, points - pointLoss)`,
`size = max(15, size - Math.floor(pointLoss * 0.3))`, and the survival-time
refresh.  `isAlive` is untouched: the victim stays in the session. -/
def absorbLoserUpd (loss : Nat) (now : Int) (p : Player) : Player :=
  { p with points := max 0 (p.points - loss)
           size := max 15 (p.size - ((3 * loss) / 10 : Nat))
           survivalTime := now - p.joinedAt }

/-- `gameSessionSchema.methods.absorb`: look up both participants by socket
id, fail when either is missing or the victim is not alive, otherwise apply
the point-economy transfer to both (absorber first, then victim, mirroring
the source's mutation order). -/
def absorb (s : GameSession) (now : Int) (absorberSid victimSid : String) :
    Option GameSession :=
  match s.players.find? (bySid absorberSid), s.players.find? (bySid victimSid) with
  | some _, some victim =>
    if victim.isAlive then
      let ps1 := updateFirst (bySid absorberSid)
        (absorbWinnerUpd (settingsGain s.settings)) s.players
      let ps2 := updateFirst (bySid victimSid)
        (absorbLoserUpd (settingsLoss s.settings) now) ps1
      some { s with players := ps2 }
    else none
  | _, _ => none

theorem bySid_absorbWinnerUpd (sid : String) (g : Nat) (x : Player) :
    bySid sid (absorbWinnerUpd g x) = bySid sid x := rfl

theorem bySid_absorbLoserUpd (sid : String) (l : Nat) (now : Int) (x : Player) :
    bySid sid (absorbLoserUpd l now x) = bySid sid x := rfl

theorem bySid_disjoint {a v : String} (hne : a ≠ v) (x : Player) :
    bySid v x = true → bySid a x = false := by
  simp only [bySid, beq_iff_eq]
  intro h
  simp [h, Option.some_injective, hne.symm]

/-- C1: whenever `absorb` resolves (distinct participants, victim alive),
the winner's points rise by the configured gain, the winner's size by half
of that gain, the winner's absorption counter by one; the loser's points
drop by the configured loss floored at zero and the loser's size by
`floor(0.3 * loss)` floored at the minimum size 15; the loser remains in
the session (the player list keeps its length) and remains alive. -/
theorem absorb_point_economy (s : GameSession) (now : Int)
    (aSid vSid : String) (s' : GameSession) (hne : aSid ≠ vSid)
    (h : absorb s now aSid vSid = some s') :
    ∃ a v a' v',
      s.players.find? (bySid aSid) = some a ∧
      s.players.find? (bySid vSid) = some v ∧
      s'.players.find? (bySid aSid) = some a' ∧
      s'.players.find? (bySid vSid) = some v' ∧
      a'.points = a.points + settingsGain s.settings ∧
      a'.size = a.size + (settingsGain s.settings / 2 : Nat) ∧
      a'.absorptions = a.absorptions + 1 ∧
      v'.points = max 0 (v.points - settingsLoss s.settings) ∧
      v'.size = max 15 (v.size - ((3 * settingsLoss s.settings) / 10 : Nat)) ∧
      v'.isAlive = true ∧
      s'.players.length = s.players.length := by
  unfold absorb at h
  split at h
  case h_2 => exact absurd h (by simp)
  case h_1 x a v ha hv =>
  by_cases halive : v.isAlive
  · rw [if_pos halive, Option.some_inj] at h
    subst h
    refine ⟨a, v, absorbWinnerUpd (settingsGain s.settings) a,
      absorbLoserUpd (settingsLoss s.settings) now v, ha, hv, ?_, ?_, ?_, ?_, ?_, ?_, ?_, ?_, ?_⟩
    · show (updateFirst (bySid vSid) _ (updateFirst (bySid aSid) _ s.players)).find? (bySid aSid) = _
      rw [find?_updateFirst_of_disjoint (bySid_disjoint hne)
          (fun x hx => by rw [bySid_absorbLoserUpd]; exact bySid_disjoint hne x hx),
        find?_updateFirst_map (fun x hx => by rw [bySid_absorbWinnerUpd]; exact hx),
        ha, Option.map_some']
    · show (updateFirst (bySid vSid) _ (updateFirst (bySid aSid) _ s.players)).find? (bySid vSid) = _
      rw [find?_updateFirst_map (fun x hx => by rw [bySid_absorbLoserUpd]; exact hx),
        find?_updateFirst_of_disjoint (bySid_disjoint hne.symm)
          (fun x hx => by rw [bySid_absorbWinnerUpd]; exact bySid_disjoint hne.symm x hx),
        hv, Option.map_some']
    · rfl
    · rfl
    · rfl
    · rfl
    · rfl
    · simpa [absorbLoserUpd] using halive
    · show (updateFirst _ _ (updateFirst _ _ s.players)).length = _
      rw [length_updateFirst, length_updateFirst]
  · rw [if_neg halive] at h
    exact absurd h (by simp)

/-- A concrete two-player session for exercising `absorb`. -/
def demoAbsorbSession : GameSession :=
  { sessionId := "demo"
    status := .active
    players := [
      { pid := "pA", userId := "uA", username := "ann", socketId := some "sA" },
      { pid := "pV", userId := "uV", username := "vic", socketId := some "sV" }] }

/-- Witness for C1: `absorb` on the concrete session succeeds and the
theorem's conclusions are delivered at that input. -/
theorem absorb_point_economy_witness :
    ("sA" ≠ "sV") ∧
    (absorb demoAbsorbSession 1000 "sA" "sV" = some
      { demoAbsorbSession with players := [
        { pid := "pA", userId := "uA", username := "ann", socketId := some "sA",
          points := 120, size := 30, absorptions := 1 },
        { pid := "pV", userId := "uV", username := "vic", socketId := some "sV",
          points := 90, size := 17, survivalTime := 1000 }] }) ∧
    (∃ a v a' v',
      demoAbsorbSession.players.find? (bySid "sA") = some a ∧
      demoAbsorbSession.players.find? (bySid "sV") = some v ∧
      ({ demoAbsorbSession with players := [
        { pid := "pA", userId := "uA", username := "ann", socketId := some "sA",
          points := 120, size := 30, absorptions := 1 },
        { pid := "pV", userId := "uV", username := "vic", socketId := some "sV",
          points := 90, size := 17, survivalTime := 1000 }] } : GameSession).players.find?
        (bySid "sA") = some a' ∧
      ({ demoAbsorbSession with players := [
        { pid := "pA", userId := "uA", username := "ann", socketId := some "sA",
          points := 120, size := 30, absorptions := 1 },
        { pid := "pV", userId := "uV", username := "vic", socketId := some "sV",
          points := 90, size := 17, survivalTime := 1000 }] } : GameSession).players.find?
        (bySid "sV") = some v' ∧
      a'.points = a.points + settingsGain demoAbsorbSession.settings ∧
      a'.size = a.size + (settingsGain demoAbsorbSession.settings / 2 : Nat) ∧
      a'.absorptions = a.absorptions + 1 ∧
      v'.points = max 0 (v.points - settingsLoss demoAbsorbSession.settings) ∧
      v'.size = max 15 (v.size - ((3 * settingsLoss demoAbsorbSession.settings) / 10 : Nat)) ∧
      v'.isAlive = true ∧
      ({ demoAbsorbSession with players := [
        { pid := "pA", userId := "uA", username := "ann", socketId := some "sA",
          points := 120, size := 30, absorptions := 1 },
        { pid := "pV", userId := "uV", username := "vic", socketId := some "sV",
          points := 90, size := 17, survivalTime := 1000 }] } : GameSession).players.length =
        demoAbsorbSession.players.length) :=
  ⟨by decide, by decide,
    absorb_point_economy demoAbsorbSession 1000 "sA" "sV" _ (by decide) (by decide)⟩

/-! ### Orb consumption (`gameSessionSchema.methods.consumeMovieOrb`) -/

/-- The orb lookup predicate `orb.id === orbId`. -/
def orbById (oid : String) (o : MovieOrb) : Bool :=
  o.id == oid

/-- The player lookup of `consumeMovieOrb`:
`p._id.toString() === playerId || p.socketId === playerId`. -/
def byPidOrSid (playerId : String) (p : Player) : Bool :=
  p.pid == playerId || p.socketId == some playerId

/-- The credit applied on consumption: `points += orb.pointValue`,
`size += Math.floor(orb.pointValue * 0.3)`. -/
def consumeUpd (pv : Nat) (p : Player) : Player :=
  { p with points := p.points + pv
           size := p.size + ((3 * pv) / 10 : Nat) }

/-- `gameSessionSchema.methods.consumeMovieOrb`: find the orb by id (null
when absent, leaving the session untouched), find the consuming player
(null when absent), then credit the player and remove the orb in the same
transition.  `none` models the source's `return null` paths, which occur
before any mutation. -/
def consumeMovieOrb (s : GameSession) (playerId orbId : String) :
    Option (GameSession × MovieOrb) :=
  match s.movieOrbs.find? (orbById orbId) with
  | none => none
  | some orb =>
    match s.players.find? (byPidOrSid playerId) with
    | none => none
    | some _ =>
      some ({ s with
        players := updateFirst (byPidOrSid playerId) (consumeUpd orb.pointValue) s.players
        movieOrbs := s.movieOrbs.eraseP (orbById orbId) }, orb)

theorem byPidOrSid_consumeUpd (pid : String) (pv : Nat) (x : Player) :
    byPidOrSid pid (consumeUpd pv x) = byPidOrSid pid x := rfl

/-- C2: when `consumeMovieOrb` succeeds, the consumed orb carries the
requested id, it is removed from the pool (no orb with that id remains and
the pool shrinks by exactly one), the player is credited the orb's point
value and the derived size gain in the same transition — and the
consumption is not repeatable: any further attempt against the same orb id
returns `none` (the source's `null`), which is the mutation-free path. -/
theorem consumeMovieOrb_at_most_once (s : GameSession) (pid oid : String)
    (s' : GameSession) (orb : MovieOrb)
    (hnd : (s.movieOrbs.map MovieOrb.id).Nodup)
    (h : consumeMovieOrb s pid oid = some (s', orb)) :
    orb.id = oid ∧
    (∀ o ∈ s'.movieOrbs, o.id ≠ oid) ∧
    s'.movieOrbs.length + 1 = s.movieOrbs.length ∧
    (∃ p p', s.players.find? (byPidOrSid pid) = some p ∧
      s'.players.find? (byPidOrSid pid) = some p' ∧
      p'.points = p.points + orb.pointValue ∧
      p'.size = p.size + ((3 * orb.pointValue) / 10 : Nat)) ∧
    (∀ pid2, consumeMovieOrb s' pid2 oid = none) := by
  unfold consumeMovieOrb at h
  split at h
  case h_1 => exact absurd h (by simp)
  case h_2 orbF horbF =>
  split at h
  case h_1 => exact absurd h (by simp)
  case h_2 p hp =>
  rw [Option.some_inj, Prod.mk.injEq] at h
  obtain ⟨hs, horbeq⟩ := h
  rw [horbeq] at horbF hs
  have hmem : orb ∈ s.movieOrbs := List.mem_of_find?_eq_some horbF
  have hporb : orbById oid orb = true := List.find?_some horbF
  have hid : orb.id = oid := by simpa [orbById] using hporb
  have hgone : ∀ o ∈ s.movieOrbs.eraseP (orbById oid), o.id ≠ oid := by
    obtain ⟨c, l₁, l₂, hnotl₁, hc, hsplitL, herase⟩ :=
      List.exists_of_eraseP hmem hporb
    have hcid : c.id = oid := by simpa [orbById] using hc
    have hnodup2 : ((l₁ ++ c :: l₂).map MovieOrb.id).Nodup := by
      rw [← hsplitL]; exact hnd
    rw [List.map_append, List.map_cons] at hnodup2
    obtain ⟨-, h2, hdisj⟩ := List.nodup_append.mp hnodup2
    have hcl₂ : c.id ∉ l₂.map MovieOrb.id := (List.nodup_cons.mp h2).1
    have hcl₁ : c.id ∉ l₁.map MovieOrb.id := fun hin =>
      hdisj hin (List.mem_cons_self _ _)
    rw [herase]
    intro o ho hoid
    rcases List.mem_append.mp ho with h₁ | h₂
    · exact hcl₁ (List.mem_map.mpr ⟨o, h₁, by rw [hoid, hcid]⟩)
    · exact hcl₂ (List.mem_map.mpr ⟨o, h₂, by rw [hoid, hcid]⟩)
  refine ⟨hid, ?_, ?_, ?_, ?_⟩
  · rw [← hs]
    exact hgone
  · rw [← hs]
    exact List.length_eraseP_add_one hmem hporb
  · refine ⟨p, consumeUpd orb.pointValue p, hp, ?_, rfl, rfl⟩
    rw [← hs]
    show (updateFirst (byPidOrSid pid) (consumeUpd orb.pointValue) s.players).find?
      (byPidOrSid pid) = _
    rw [find?_updateFirst_map (fun x hx => by rw [byPidOrSid_consumeUpd]; exact hx),
      hp, Option.map_some']
  · intro pid2
    unfold consumeMovieOrb
    have hfe : s'.movieOrbs.find? (orbById oid) = none := by
      rw [List.find?_eq_none]
      intro o ho
      simp [orbById, hgone o (by rw [← hs] at ho; exact ho)]
    rw [hfe]

/-- A concrete one-orb session for exercising `consumeMovieOrb`. -/
def demoOrbSession : GameSession :=
  { sessionId := "orbdemo"
    status := .active
    players := [{ pid := "p1", userId := "u1", username := "ann", socketId := some "s1" }]
    movieOrbs := [{ id := "orb_1", pointValue := 40 }] }

/-- The orb of `demoOrbSession`. -/
def demoOrb : MovieOrb := { id := "orb_1", pointValue := 40 }

/-- The consuming player of `demoOrbSession`, after the credit. -/
def demoConsumerAfter : Player :=
  { pid := "p1", userId := "u1", username := "ann",
    socketId := some "s1", points := 140, size := 32 }

/-- The expected session after `demoOrb` is consumed by player `p1`. -/
def demoOrbSessionAfter : GameSession :=
  { sessionId := "orbdemo",
    status := .active,
    players := [demoConsumerAfter],
    movieOrbs := [] }

/-- Witness for C2: consuming the only orb of the concrete session
succeeds, and the theorem's conclusions are delivered there. -/
theorem consumeMovieOrb_at_most_once_witness :
    ((demoOrbSession.movieOrbs.map MovieOrb.id).Nodup ∧
      consumeMovieOrb demoOrbSession "p1" "orb_1" =
        some (demoOrbSessionAfter, demoOrb)) ∧
    (demoOrb.id = "orb_1" ∧
      (∀ o ∈ demoOrbSessionAfter.movieOrbs, o.id ≠ "orb_1") ∧
      demoOrbSessionAfter.movieOrbs.length + 1 = demoOrbSession.movieOrbs.length ∧
      (∃ p p', demoOrbSession.players.find? (byPidOrSid "p1") = some p ∧
        demoOrbSessionAfter.players.find? (byPidOrSid "p1") = some p' ∧
        p'.points = p.points + demoOrb.pointValue ∧
        p'.size = p.size + ((3 * demoOrb.pointValue) / 10 : Nat)) ∧
      (∀ pid2, consumeMovieOrb demoOrbSessionAfter pid2 "orb_1" = none)) :=
  ⟨⟨by decide, by decide⟩,
    consumeMovieOrb_at_most_once demoOrbSession "p1" "orb_1" demoOrbSessionAfter
      demoOrb (by decide) (by decide)⟩

/-! ### Session end condition (`gameSessionSchema.methods.shouldEnd`) -/

/-- `gameSessionSchema.methods.shouldEnd`: `false` unless the session is
`active`; otherwise `true` exactly when the wall-clock time elapsed since
`startTime` exceeds the configured duration in days. -/
def shouldEnd (s : GameSession) (now : Int) : Bool :=
  if s.status = SessionStatus.active then
    decide ((s.duration : Int) * (24 * 60 * 60 * 1000) < now - s.startTime)
  else false

/-- C4: `shouldEnd` is `true` iff the session is active and the elapsed
wall-clock time strictly exceeds the configured duration converted to
milliseconds — and it is entirely independent of the player list and orb
pool, so a session is never ended because of player count or elimination. -/
theorem shouldEnd_iff_time_expired (s : GameSession) (now : Int) :
    (shouldEnd s now = true ↔
      s.status = SessionStatus.active ∧
        (s.duration : Int) * (24 * 60 * 60 * 1000) < now - s.startTime) ∧
    (∀ (ps : List Player) (orbs : List MovieOrb),
      shouldEnd { s with players := ps, movieOrbs := orbs } now = shouldEnd s now) := by
  constructor
  · unfold shouldEnd
    by_cases hst : s.status = SessionStatus.active <;> simp [hst]
  · intro ps orbs
    rfl

/-! ### Movement clamping (`handlePlayerMove` in `GameManager.js`) -/

/-- The bounds clamp of `handlePlayerMove`:
`Math.max(0, Math.min(worldSize.width, x))` and likewise for `y`.
Out-of-bounds input is clamped, never rejected. -/
def clampPosition (worldW worldH x y : Rat) : Rat × Rat :=
  (max 0 (min worldW x), max 0 (min worldH y))

/-- C5: for non-negative world bounds, the clamped position always lies in
`[0, worldWidth] × [0, worldHeight]`, whatever the magnitude of the
requested coordinates. -/
theorem clampPosition_in_bounds (w h x y : Rat) (hw : 0 ≤ w) (hh : 0 ≤ h) :
    0 ≤ (clampPosition w h x y).1 ∧ (clampPosition w h x y).1 ≤ w ∧
    0 ≤ (clampPosition w h x y).2 ∧ (clampPosition w h x y).2 ≤ h :=
  ⟨le_max_left _ _, max_le hw (min_le_left _ _),
    le_max_left _ _, max_le hh (min_le_left _ _)⟩

/-- Witness for C5 at a far-out-of-bounds request. -/
theorem clampPosition_in_bounds_witness :
    ((0 : Rat) ≤ 1000 ∧ (0 : Rat) ≤ 800) ∧
    (0 ≤ (clampPosition 1000 800 123456 (-999)).1 ∧
      (clampPosition 1000 800 123456 (-999)).1 ≤ 1000 ∧
      0 ≤ (clampPosition 1000 800 123456 (-999)).2 ∧
      (clampPosition 1000 800 123456 (-999)).2 ≤ 800) :=
  ⟨⟨by norm_num, by norm_num⟩,
    clampPosition_in_bounds 1000 800 123456 (-999) (by norm_num) (by norm_num)⟩

/-! ### The encounter scan of `handlePlayerMove` (`GameManager.js`)

After clamping the mover's position, `handlePlayerMove` scans the other
connected, alive players in session-list order, skipping spawn-protected,
halted and cooling-down candidates, and resolves exactly one encounter with
the first overlapping candidate.  All encounter effects (halt timers,
cooldowns, point transfer) and all encounter broadcasts apply only to the
pair selected by this scan. -/

/-- `t && t.getTime() > nowTs`: a nullable timestamp is "active" when
present and in the future. -/
def timerActive (t : Option Int) (now : Int) : Bool :=
  match t with
  | some ts => now < ts
  | none => false

/-- Spawn protection test used by the scan. -/
def isProtected (p : Player) (now : Int) : Bool :=
  timerActive p.spawnProtectedUntil now

/-- Battle halt test used by the scan. -/
def isHalted (p : Player) (now : Int) : Bool :=
  timerActive p.battleHaltUntil now

/-- Battle cooldown test used by the scan. -/
def onCooldown (p : Player) (now : Int) : Bool :=
  timerActive p.battleCooldownUntil now

/-- Circle-overlap test
`Math.sqrt(dx*dx + dy*dy) <= (player.size + target.size) / 2`, embedded in
the equivalent squared form (exact for the non-negative sizes the engine
maintains). -/
def circlesOverlap (a b : Player) : Bool :=
  decide ((a.posX - b.posX) ^ 2 + (a.posY - b.posY) ^ 2 ≤
    (((a.size + b.size : Int) : Rat) / 2) ^ 2)

/-- The candidate filter
`players.filter(p => p.isAlive && p.socketId && p.socketId !== socket.id)`. -/
def encounterCandidates (players : List Player) (moverSid : String) : List Player :=
  players.filter (fun p =>
    p.isAlive && p.socketId.isSome && !(p.socketId == some moverSid))

/-- The per-candidate admission test of the scan body: the candidate is not
spawn-protected, neither side is halted, neither side is on battle
cooldown, and the circles overlap. -/
def encounterAdmits (mover t : Player) (now : Int) : Bool :=
  !(isProtected t now) &&
  !(isHalted t now || isHalted mover now) &&
  !(onCooldown t now || onCooldown mover now) &&
  circlesOverlap mover t

/-- The encounter scan: nothing when the mover is spawn-protected,
otherwise the first admitted overlapping candidate in session-list order. -/
def encounterScan (players : List Player) (mover : Player) (moverSid : String)
    (now : Int) : Option Player :=
  if isProtected mover now then none
  else (encounterCandidates players moverSid).find? (fun t => encounterAdmits mover t now)

/-- C7: the encounter scan never selects a pair with an active spawn
protection on either side: if it returns a target at all, both the mover
and the target are unprotected at `now`.  In particular a spawn-protected
mover triggers no encounter whatsoever, and a spawn-protected candidate is
skipped however close it is — so no state change or broadcast ever involves
a protected pair. -/
theorem encounterScan_respects_spawn_protection (players : List Player)
    (mover : Player) (moverSid : String) (now : Int) (t : Player)
    (h : encounterScan players mover moverSid now = some t) :
    isProtected mover now = false ∧ isProtected t now = false := by
  unfold encounterScan at h
  by_cases hp : isProtected mover now
  · rw [if_pos hp] at h
    exact absurd h (by simp)
  · rw [if_neg hp] at h
    have := List.find?_some h
    simp only [encounterAdmits, Bool.and_eq_true, Bool.not_eq_true',
      Bool.or_eq_false_iff] at this
    exact ⟨Bool.of_not_eq_true hp, this.1.1.1⟩

/-- A concrete unprotected mover at the origin. -/
def demoMover : Player :=
  { pid := "pM", userId := "uM", username := "mia", socketId := some "sM" }

/-- A concrete unprotected candidate overlapping the mover. -/
def demoTarget : Player :=
  { pid := "pT", userId := "uT", username := "tom", socketId := some "sT" }

/-- Concrete evaluation of the scan: the unprotected overlapping candidate
is selected. -/
theorem encounterScan_demo_eval :
    encounterScan [demoMover, demoTarget] demoMover "sM" 0 = some demoTarget := by
  simp only [encounterScan, encounterCandidates, encounterAdmits, isProtected,
    isHalted, onCooldown, timerActive, circlesOverlap, demoMover, demoTarget,
    List.filter, List.find?]
  norm_num

/-- Witness for C7: on a concrete overlapping pair the scan selects the
candidate, and the theorem delivers that both sides are unprotected. -/
theorem encounterScan_respects_spawn_protection_witness :
    (encounterScan [demoMover, demoTarget] demoMover "sM" 0 = some demoTarget) ∧
    (isProtected demoMover 0 = false ∧ isProtected demoTarget 0 = false) :=
  ⟨encounterScan_demo_eval,
    encounterScan_respects_spawn_protection [demoMover, demoTarget] demoMover "sM" 0
      demoTarget encounterScan_demo_eval⟩

/-! ### Encounter outcome resolution (`handlePlayerMove`, iteration with the
quiz-duel branch)

Once the scan has selected a pair, `handlePlayerMove` sets a shared battle
halt on both, evaluates `canAbsorb` in both directions and branches:
stalemate (neither side), duel offer (both sides), or absorption by the
single capable side (subject to the per-absorber cooldown registry).  The
random regeneration of `fightMoviePool` in the duel branch is abstracted:
the emitted pools are the participants' current pools. -/

/-- The outcome of a resolved encounter. -/
inductive EncounterOutcome where
  | stalemate : List Movie → List Movie → EncounterOutcome
  | duelOffer : List Movie → List Movie → EncounterOutcome
  | absorbedByMover : EncounterOutcome
  | absorbedByTarget : EncounterOutcome
  | blockedByCooldown : EncounterOutcome
deriving DecidableEq, Repr

/-- `battleHaltMs || 600`. -/
def haltOf (st : Settings) : Nat :=
  if st.battleHaltMs = 0 then 600 else st.battleHaltMs

/-- `battleCooldownMs || 2000`. -/
def cooldownOf (st : Settings) : Nat :=
  if st.battleCooldownMs = 0 then 2000 else st.battleCooldownMs

/-- Set the battle-halt and battle-cooldown timers of a player, the two
timestamp writes an encounter applies to its participants. -/
def setBattleTimers (p : Player) (haltUntil cdUntil : Option Int) : Player :=
  { p with battleHaltUntil := haltUntil, battleCooldownUntil := cdUntil }

/-- The encounter outcome pipeline on the selected pair: shared halt on
both, then the three-way branch on the two `canAbsorb` directions.
`absorberOnCooldown` is the per-(user, session) absorption-cooldown lookup
of the registry, checked only past the stalemate and duel branches. -/
def resolveEncounterOutcome (st : Settings) (mover target : Player)
    (moverU targetU : User) (now : Int) (absorberOnCooldown : Bool) :
    EncounterOutcome × Player × Player :=
  let haltUntil := some (now + (haltOf st : Int))
  let mover1 := { mover with battleHaltUntil := haltUntil }
  let target1 := { target with battleHaltUntil := haltUntil }
  let cdUntil := some (now + (cooldownOf st : Int))
  let moverCan := canAbsorb moverU targetU
  let targetCan := canAbsorb targetU moverU
  if !moverCan && !targetCan then
    (.stalemate ((getMissingMovies moverU targetU).take 5)
        ((getMissingMovies targetU moverU).take 5),
      setBattleTimers mover haltUntil cdUntil,
      setBattleTimers target haltUntil cdUntil)
  else if moverCan && targetCan then
    (.duelOffer targetU.fightMoviePool moverU.fightMoviePool,
      setBattleTimers mover haltUntil cdUntil,
      setBattleTimers target haltUntil cdUntil)
  else if absorberOnCooldown then
    (.blockedByCooldown, mover1, target1)
  else if moverCan then
    (.absorbedByMover, absorbWinnerUpd (settingsGain st) mover1,
      absorbLoserUpd (settingsLoss st) now target1)
  else
    (.absorbedByTarget, absorbLoserUpd (settingsLoss st) now mover1,
      absorbWinnerUpd (settingsGain st) target1)

/-- C6: when both participants can satisfy each other, the encounter does
not resolve into an instant absorption: the outcome is the quiz-duel offer
to both sides (each receives the opponent's pool), the same battle cooldown
timestamp is applied to both participants, and neither player's points,
size, or absorption counter changes. -/
theorem duel_eligible_encounter_offers_duel (st : Settings)
    (mover target : Player) (moverU targetU : User) (now : Int)
    (cdFlag : Bool)
    (h1 : canAbsorb moverU targetU = true) (h2 : canAbsorb targetU moverU = true) :
    resolveEncounterOutcome st mover target moverU targetU now cdFlag =
      (.duelOffer targetU.fightMoviePool moverU.fightMoviePool,
        setBattleTimers mover (some (now + (haltOf st : Int)))
          (some (now + (cooldownOf st : Int))),
        setBattleTimers target (some (now + (haltOf st : Int)))
          (some (now + (cooldownOf st : Int)))) ∧
    (resolveEncounterOutcome st mover target moverU targetU now cdFlag).2.1.points
      = mover.points ∧
    (resolveEncounterOutcome st mover target moverU targetU now cdFlag).2.1.size
      = mover.size ∧
    (resolveEncounterOutcome st mover target moverU targetU now cdFlag).2.1.absorptions
      = mover.absorptions ∧
    (resolveEncounterOutcome st mover target moverU targetU now cdFlag).2.2.points
      = target.points ∧
    (resolveEncounterOutcome st mover target moverU targetU now cdFlag).2.2.size
      = target.size ∧
    (resolveEncounterOutcome st mover target moverU targetU now cdFlag).2.2.absorptions
      = target.absorptions := by
  have hmain : resolveEncounterOutcome st mover target moverU targetU now cdFlag =
      (.duelOffer targetU.fightMoviePool moverU.fightMoviePool,
        setBattleTimers mover (some (now + (haltOf st : Int)))
          (some (now + (cooldownOf st : Int))),
        setBattleTimers target (some (now + (haltOf st : Int)))
          (some (now + (cooldownOf st : Int)))) := by
    unfold resolveEncounterOutcome
    rw [h1, h2]
    rfl
  refine ⟨hmain, ?_, ?_, ?_, ?_, ?_, ?_⟩ <;> rw [hmain] <;> rfl

/-- A user with no movies at all: its comparison set is empty, so anybody
can absorb it. -/
def emptyUser : User := {}

/-- Witness for C6: with two empty-library users (mutually absorbable) the
pipeline at concrete players and settings yields the duel offer. -/
theorem duel_eligible_encounter_offers_duel_witness :
    (canAbsorb emptyUser emptyUser = true ∧ canAbsorb emptyUser emptyUser = true) ∧
    (resolveEncounterOutcome {} demoMover demoTarget emptyUser emptyUser 50 false =
      (.duelOffer emptyUser.fightMoviePool emptyUser.fightMoviePool,
        setBattleTimers demoMover (some (50 + (haltOf {} : Int)))
          (some (50 + (cooldownOf {} : Int))),
        setBattleTimers demoTarget (some (50 + (haltOf {} : Int)))
          (some (50 + (cooldownOf {} : Int)))) ∧
      (resolveEncounterOutcome {} demoMover demoTarget emptyUser emptyUser 50 false).2.1.points
        = demoMover.points ∧
      (resolveEncounterOutcome {} demoMover demoTarget emptyUser emptyUser 50 false).2.1.size
        = demoMover.size ∧
      (resolveEncounterOutcome {} demoMover demoTarget emptyUser emptyUser 50 false).2.1.absorptions
        = demoMover.absorptions ∧
      (resolveEncounterOutcome {} demoMover demoTarget emptyUser emptyUser 50 false).2.2.points
        = demoTarget.points ∧
      (resolveEncounterOutcome {} demoMover demoTarget emptyUser emptyUser 50 false).2.2.size
        = demoTarget.size ∧
      (resolveEncounterOutcome {} demoMover demoTarget emptyUser emptyUser 50 false).2.2.absorptions
        = demoTarget.absorptions) :=
  ⟨⟨by rfl, by rfl⟩,
    duel_eligible_encounter_offers_duel {} demoMover demoTarget emptyUser emptyUser 50
      false (by rfl) (by rfl)⟩

/-! ### Rating update (`userSchema.methods.updateElo`)

`updateElo(opponentElo, won, kFactor = 32)` computes the paired-comparison
expected score, rounds the K-weighted update and clamps at the floor 100.
Both call sites (`handlePlayerMove`, `handleAbsorptionAttempt`) capture the
two ratings *before* either update and call `updateElo` once for each
participant with the default `K = 32`, passing the opponent's pre-update
rating. -/

/-- `expected = 1 / (1 + 10^((opponentElo − selfElo) / 400))`. -/
noncomputable def expectedScore (selfElo oppElo : Int) : Real :=
  1 / (1 + (10 : Real) ^ (((oppElo - selfElo : Int) : Real) / 400))

/-- `userSchema.methods.updateElo` with the default `kFactor = 32`:
`round(self + K * (actual − expected))` clamped to the floor 100. -/
noncomputable def updateElo (selfElo oppElo : Int) (won : Bool) : Int :=
  max 100 (round ((selfElo : Real) +
    32 * ((if won then (1 : Real) else 0) - expectedScore selfElo oppElo)))

/-- The per-encounter application: both participants are updated once,
each against the other's pre-update rating (`winnerElo` / `loserElo` are
captured before either `updateElo` call in the source). -/
noncomputable def applyEloPair (winnerElo loserElo : Int) : Int × Int :=
  (updateElo winnerElo loserElo true, updateElo loserElo winnerElo false)

theorem expectedScore_self (r : Int) : expectedScore r r = 1 / 2 := by
  unfold expectedScore
  rw [sub_self]
  norm_num

theorem updateElo_self_win (r : Int) : updateElo r r true = max 100 (r + 16) := by
  unfold updateElo
  rw [expectedScore_self, if_pos rfl]
  have h : (r : Real) + 32 * (1 - 1 / 2) = ((r + 16 : Int) : Real) := by
    push_cast
    ring
  rw [h, round_intCast]

theorem updateElo_self_loss (r : Int) : updateElo r r false = max 100 (r - 16) := by
  unfold updateElo
  rw [expectedScore_self, if_neg (by simp)]
  have h : (r : Real) + 32 * (0 - 1 / 2) = ((r - 16 : Int) : Real) := by
    push_cast
    ring
  rw [h, round_intCast]

/-- C8 counterexample: at equal prior ratings 110 the winner gains 16 but
the loser, clamped at the floor 100, loses only 10 — the rating deltas of
the two participants do *not* have equal magnitude, contradicting the
claim's unconditional `|ΔA| == |ΔB|` for equal prior ratings. -/
theorem applyEloPair_clamp_breaks_symmetry :
    applyEloPair 110 110 = (126, 100) ∧
    ¬ |((applyEloPair 110 110).1 - 110)| = |((applyEloPair 110 110).2 - 110)| := by
  have h : applyEloPair 110 110 = (126, 100) := by
    unfold applyEloPair
    rw [updateElo_self_win, updateElo_self_loss]
    norm_num
  refine ⟨h, ?_⟩
  rw [h]
  norm_num

/-- C8 (amended): the update computes
`expected = 1 / (1 + 10^((opp − self)/400))`,
`new = round(self + 32 * (actual − expected))` clamped at the floor 100,
applied once to each participant with the other's pre-update rating; and
for a win between two players of equal prior rating the deltas have equal
magnitude *provided the floor clamp stays inactive*, i.e. when the common
prior rating is at least 116: the winner moves to `r + 16`, the loser to
`r − 16`. -/
theorem applyEloPair_equal_ratings (r : Int) (hr : 116 ≤ r) :
    applyEloPair r r = (r + 16, r - 16) ∧
    |((applyEloPair r r).1 - r)| = |((applyEloPair r r).2 - r)| := by
  have h : applyEloPair r r = (r + 16, r - 16) := by
    unfold applyEloPair
    rw [updateElo_self_win, updateElo_self_loss,
      max_eq_right (by omega), max_eq_right (by omega)]
  refine ⟨h, ?_⟩
  rw [h]
  simp

/-- Witness for C8 at the concrete equal rating 120. -/
theorem applyEloPair_equal_ratings_witness :
    ((116 : Int) ≤ 120) ∧
    (applyEloPair 120 120 = (120 + 16, 120 - 16) ∧
      |((applyEloPair 120 120).1 - 120)| = |((applyEloPair 120 120).2 - 120)|) :=
  ⟨by norm_num, applyEloPair_equal_ratings 120 (by norm_num)⟩

/-! ### Session end and winner (`gameSessionSchema.methods.endSession`) -/

/-- `gameSessionSchema.methods.getActivePlayers`: alive players holding a
live connection. -/
def getActivePlayers (s : GameSession) : List Player :=
  s.players.filter (fun p => p.isAlive && p.socketId.isSome)

/-- The reducer `(prev, current) => prev.size > current.size ? prev : current`:
keeps `prev` only when strictly larger, so a tie moves to `current`. -/
def largerOf (prev cur : Player) : Player :=
  if cur.size < prev.size then prev else cur

/-- `gameSessionSchema.methods.endSession`: mark the session ended, stamp
the end time, and — when at least one connected player exists — write the
winner summary from the reduction of the active-player list. -/
def endSession (s : GameSession) (now : Int) : GameSession :=
  match getActivePlayers s with
  | [] => { s with status := .ended, endTime := some now }
  | h :: t =>
    let w := t.foldl largerOf h
    { s with
        status := .ended,
        endTime := some now,
        winner := some ⟨w.userId, w.username, w.size, w.absorptions⟩ }

/-- The JS `reduce` over `largerOf` lands on an element that is maximal in
size, and on the *last* such element: everything after it is strictly
smaller, everything before it is no larger. -/
theorem foldl_largerOf_decomp (t : List Player) :
    ∀ h : Player,
      (t.foldl largerOf h = h ∧ ∀ p ∈ t, p.size < h.size) ∨
      (∃ l1 l2, t = l1 ++ t.foldl largerOf h :: l2 ∧
        h.size ≤ (t.foldl largerOf h).size ∧
        (∀ p ∈ l1, p.size ≤ (t.foldl largerOf h).size) ∧
        (∀ p ∈ l2, p.size < (t.foldl largerOf h).size)) := by
  induction t with
  | nil => intro h; exact Or.inl ⟨rfl, by simp⟩
  | cons c t ih =>
    intro h
    by_cases hc : c.size < h.size
    · have hstep : (c :: t).foldl largerOf h = t.foldl largerOf h := by
        simp [List.foldl_cons, largerOf, hc]
      rcases ih h with ⟨heq, hlt⟩ | ⟨l1, l2, hsplit, hle, hl1, hl2⟩
      · refine Or.inl ⟨by rw [hstep, heq], ?_⟩
        intro p hp
        rcases List.mem_cons.mp hp with rfl | hp'
        · exact hc
        · exact hlt p hp'
      · refine Or.inr ⟨c :: l1, l2, ?_, ?_, ?_, ?_⟩
        · rw [hstep, List.cons_append, ← hsplit]
        · rw [hstep]; exact hle
        · rw [hstep]
          intro p hp
          rcases List.mem_cons.mp hp with rfl | hp'
          · exact le_of_lt (lt_of_lt_of_le hc hle)
          · exact hl1 p hp'
        · rw [hstep]; exact hl2
    · have hstep : (c :: t).foldl largerOf h = t.foldl largerOf c := by
        simp [List.foldl_cons, largerOf, hc]
      push_neg at hc
      rcases ih c with ⟨heq, hlt⟩ | ⟨l1, l2, hsplit, hle, hl1, hl2⟩
      · refine Or.inr ⟨[], t, ?_, ?_, ?_, ?_⟩
        · rw [hstep, heq]; rfl
        · rw [hstep, heq]; exact hc
        · simp
        · rw [hstep, heq]; exact hlt
      · refine Or.inr ⟨c :: l1, l2, ?_, ?_, ?_, ?_⟩
        · rw [hstep, List.cons_append, ← hsplit]
        · rw [hstep]; exact le_trans hc hle
        · rw [hstep]
          intro p hp
          rcases List.mem_cons.mp hp with rfl | hp'
          · exact hle
          · exact hl1 p hp'
        · rw [hstep]; exact hl2

/-- Two equal-size connected players; the first in list order is `aliceTie`. -/
def aliceTie : Player :=
  { pid := "pa", userId := "ua", username := "alice", socketId := some "sa" }

/-- The second equal-size connected player. -/
def bobTie : Player :=
  { pid := "pb", userId := "ub", username := "bob", socketId := some "sb" }

/-- A session whose two connected players have equal size. -/
def demoTieSession : GameSession :=
  { sessionId := "tie", status := .active, players := [aliceTie, bobTie] }

/-- C9 counterexample: with two connected players of equal maximal size the
source's reducer (`prev.size > current.size ? prev : current`) hands the
tie to the *later* player — `endSession` crowns `bob`, not the earliest
such player `alice` as the claim states. -/
theorem endSession_tie_goes_to_later_player :
    getActivePlayers demoTieSession = [aliceTie, bobTie] ∧
    aliceTie.size = bobTie.size ∧
    (endSession demoTieSession 99).winner = some ⟨"ub", "bob", 20, 0⟩ ∧
    (endSession demoTieSession 99).winner ≠ some ⟨"ua", "alice", 20, 0⟩ := by
  refine ⟨by decide, by decide, by decide, by decide⟩

/-- C9 (amended): on the transition to ended with at least one connected
player, the session is marked `ended` and the winner summary (user, final
size, absorption count) is written exactly once, from the
maximal-size connected player — with ties broken in favour of the *latest*
such player in list order: every player after the winner in the
active list is strictly smaller, every player before it is no larger. -/
theorem endSession_winner_is_last_largest (s : GameSession) (now : Int)
    (hne : getActivePlayers s ≠ []) :
    (endSession s now).status = SessionStatus.ended ∧
    ∃ w l1 l2,
      getActivePlayers s = l1 ++ w :: l2 ∧
      (∀ p ∈ l1, p.size ≤ w.size) ∧
      (∀ p ∈ l2, p.size < w.size) ∧
      (endSession s now).winner =
        some ⟨w.userId, w.username, w.size, w.absorptions⟩ := by
  cases hap : getActivePlayers s with
  | nil => exact absurd hap hne
  | cons h t =>
    constructor
    · unfold endSession
      rw [hap]
    · refine ⟨t.foldl largerOf h, ?_⟩
      rcases foldl_largerOf_decomp t h with ⟨heq, hlt⟩ | ⟨l1, l2, hsplit, hle, hl1, hl2⟩
      · refine ⟨[], t, ?_, by simp, ?_, ?_⟩
        · rw [heq]; rfl
        · rw [heq]; exact hlt
        · unfold endSession
          rw [hap]
      · refine ⟨h :: l1, l2, ?_, ?_, hl2, ?_⟩
        · rw [List.cons_append, ← hsplit]
        · intro p hp
          rcases List.mem_cons.mp hp with rfl | hp'
          · exact hle
          · exact hl1 p hp'
        · unfold endSession
          rw [hap]

/-- Witness for C9 on a concrete session with one connected player. -/
theorem endSession_winner_is_last_largest_witness :
    (getActivePlayers demoOrbSession ≠ []) ∧
    ((endSession demoOrbSession 7).status = SessionStatus.ended ∧
      ∃ w l1 l2,
        getActivePlayers demoOrbSession = l1 ++ w :: l2 ∧
        (∀ p ∈ l1, p.size ≤ w.size) ∧
        (∀ p ∈ l2, p.size < w.size) ∧
        (endSession demoOrbSession 7).winner =
          some ⟨w.userId, w.username, w.size, w.absorptions⟩) :=
  ⟨by decide, endSession_winner_is_last_largest demoOrbSession 7 (by decide)⟩

end Cineio
